import Mathlib

/-!
# Verification of the kiku voice-command front end

Shallow embedding of the kiku repository, a Tauri voice-command application.
The React frontend (`src/App.tsx`, `src/store/useKikuStore.ts`,
`src/hooks/useWebSpeechAPI.ts`) is embedded as pure state-transition
functions; handler effects (backend invocations, display updates, console
output) are recorded as explicit effect lists, in the order the code
performs them.  Backend components that live in `src-tauri` (the Rust
recording session, the whisper inference engine and the command classifier)
are not part of the frontend sources; where a definition is reconstructed
from the specification instead of code, its doc comment says so explicitly.
-/

namespace Kiku

/-! ## Character-list string operations -/

/-- `isPrefixList p l` is true when `p` occurs at the start of `l`: the
character-list analogue of the prefix comparison underlying JavaScript
`includes` and Rust `contains`. -/
def isPrefixList : List Char → List Char → Bool
  | [], _ => true
  | _ :: _, [] => false
  | a :: as, b :: bs => a == b && isPrefixList as bs

/-- `containsSub hay pat` embeds JavaScript `hay.includes(pat)` and Rust
`hay.contains(pat)`: `pat` occurs contiguously somewhere in `hay`. -/
def containsSub : List Char → List Char → Bool
  | hay, pat =>
    if isPrefixList pat hay then true
    else
      match hay with
      | [] => false
      | _ :: t => containsSub t pat

/-- ASCII lowercasing of a character list, embedding `toLowerCase()` in the
frontend and `to_lowercase()` in the Rust classifier on the ASCII command
strings this application uses. -/
def toLowerList (cs : List Char) : List Char := cs.map Char.toLower

/-! ## Shared data model (`src/types`) -/

/-- The closed command enumeration `CommandType` of `src/types`. -/
inductive CommandType
  | greeting
  | start_workflow
  | stop_workflow
  | status_check
  | show_help
deriving DecidableEq, Repr

/-- The `VoiceCommand` value returned by `stop_recording`
(`src/types`): transcribed text, confidence in `[0, 1]`, epoch timestamp. -/
structure VoiceCommand where
  text : List Char
  confidence : Rat
  timestamp : Nat
deriving DecidableEq, Repr

/-- Message categories of `src/types` `MessageType`. -/
inductive MsgType
  | error
  | success
  | info
  | command
deriving DecidableEq, Repr

/-- UI feedback message (`src/types` `Message`). -/
structure Msg where
  type : MsgType
  text : List Char
  commandType : Option CommandType
deriving DecidableEq, Repr

/-- `COMMAND_MESSAGES` of `src/types`. -/
def commandMessage : CommandType → List Char
  | .greeting => "Hello! How can I help you?".data
  | .start_workflow => "Starting workflow...".data
  | .stop_workflow => "Stopping workflow...".data
  | .status_check => "Status: All systems operational".data
  | .show_help => "Available commands: hello, start, stop, status, help".data

/-! ## Backend voice engine, modelled from the spec

The Rust side (`src-tauri/src/audio.rs`, `whisper.rs`, `voice_commands.rs`)
is not present under the provided frontend sources; the definitions in this
section carry `Modelled from the spec:` doc comments and follow the
specification text (and the README where it quotes the Rust code). -/

/-- Error taxonomy of the backend voice engine, from spec section 7. -/
inductive VoiceErr
  | deviceUnavailable
  | modelLoadError
  | notInitialized
  | alreadyRecording
  | notRecording
  | alreadyListening
  | notListening
  | inferenceError
deriving DecidableEq, Repr

/-- Modelled from the spec: the Recording Session state machine of
`src-tauri/src/audio.rs` (not under `src/`), spec section 4.4.  `idle` holds
no buffer; `recording` owns the single growable sample buffer. -/
inductive RecSession
  | idle
  | recording (buf : List Int)
deriving DecidableEq, Repr

/-- Modelled from the spec: `start_recording()` of the Recording Session
(spec section 4.4): fails with `AlreadyRecording` unless the session is
Idle; from Idle it allocates an empty RecordingBuffer and transitions to
Recording. -/
def start_recording : RecSession → Except VoiceErr RecSession
  | .idle => .ok (.recording [])
  | .recording _ => .error .alreadyRecording

/-- Modelled from the spec: `transcribe(samples)` of the Inference Engine in
`src-tauri/src/whisper.rs` (not under `src/`): fails with `NotInitialized`
when no model is loaded; a zero-length sample buffer yields empty text and
zero confidence rather than an error (spec sections 4.5 and 8); a non-empty
buffer is handed to the whisper inference routine, which this model takes as
the argument `infer`. -/
def transcribe (model : Option (List Char)) (samples : List Int)
    (infer : List Int → Except VoiceErr (List Char × Rat)) :
    Except VoiceErr (List Char × Rat) :=
  match model with
  | none => .error .notInitialized
  | some _ =>
    if samples = [] then .ok ([], 0)
    else infer samples

/-- Modelled from the spec: `stop_recording()` of the Recording Session
(spec section 4.4): fails with `NotRecording` unless Recording; otherwise it
finalizes the buffer, transcribes it and returns the resulting
`VoiceCommand`, transitioning back to Idle.  On an inference failure the
buffer is still released and the session returns to Idle (spec section 7). -/
def stop_recording (st : RecSession) (model : Option (List Char))
    (infer : List Int → Except VoiceErr (List Char × Rat)) (now : Nat) :
    Except VoiceErr VoiceCommand × RecSession :=
  match st with
  | .idle => (.error .notRecording, .idle)
  | .recording buf =>
    match transcribe model buf infer with
    | .ok (t, c) => (.ok ⟨t, c, now⟩, .idle)
    | .error e => (.error e, .idle)

/-- Modelled from the spec: `load(path)` of the Inference Engine (spec
sections 4.5 and 8): fails with `ModelLoadError` when the file at `path` is
missing or unreadable (the `fileOk` predicate), leaving any previously
loaded model intact; on success the new model replaces the previous one, and
only the two complete states are observable.  Returns the model slot after
the call together with the error, if any. -/
def loadModel (fileOk : List Char → Bool) (model : Option (List Char))
    (path : List Char) : Option (List Char) × Option VoiceErr :=
  if fileOk path then (some path, none)
  else (model, some .modelLoadError)

/-- Modelled from the spec: the statically ordered trigger table of
`process_command` in `src-tauri/src/voice_commands.rs` (not under `src/`).
The phrases are the README command list: hello/hi, start/begin, stop/end,
status/report, help. -/
def triggerTable : List (List Char × CommandType) :=
  [("hello".data, .greeting), ("hi".data, .greeting),
   ("start".data, .start_workflow), ("begin".data, .start_workflow),
   ("stop".data, .stop_workflow), ("end".data, .stop_workflow),
   ("status".data, .status_check), ("report".data, .status_check),
   ("help".data, .show_help)]

/-- Modelled from the spec: `classify(text)` (`process_command` in
`src-tauri/src/voice_commands.rs`, spec section 4.6): lowercase the text,
then return the command of the first trigger phrase, in table order, that is
contained in it; nothing when no trigger matches. -/
def classify (text : List Char) : Option CommandType :=
  (triggerTable.find? fun p => containsSub (toLowerList text) p.1).map Prod.snd

/-! ## The Web Speech hook (`src/hooks/useWebSpeechAPI.ts`)

The hook state collects the React state (`isListening`, `transcript`,
`interimTranscript`, `error`), the refs (`isManualStopRef`) and the
configuration (`continuous`, `isSupported`).  Each handler returns the new
state together with the list of recognizer effects it performs. -/

/-- Hook-visible frontend state of `useWebSpeechAPI`. -/
structure HookState where
  isSupported : Bool
  isListening : Bool
  manualStop : Bool
  continuous : Bool
  transcript : List Char
  interim : List Char
  errorMsg : Option (List Char)
deriving DecidableEq, Repr

/-- Effects the hook performs on the browser recognizer or its caller. -/
inductive HookEffect
  | startedRecognition
  | stoppedRecognition
  | onErrorCb (msg : List Char)
deriving DecidableEq, Repr

def notAllowed : List Char := "not-allowed".data

def serviceNotAllowed : List Char := "service-not-allowed".data

def noSpeech : List Char := "no-speech".data

def unsupportedText : List Char :=
  "Web Speech API is not supported in this browser".data

/-- `recognition.onstart` (`useWebSpeechAPI.ts` lines 90 to 94). -/
def handleStart (s : HookState) : HookState :=
  { s with isListening := true, errorMsg := none }

/-- `recognition.onend` (`useWebSpeechAPI.ts` lines 96 to 109): clear the
listening flag, then restart the recognizer unless the stop was manual or
continuous mode is off. -/
def handleEnd (s : HookState) : HookState × List HookEffect :=
  let s1 := { s with isListening := false }
  if !s1.manualStop && s1.continuous then (s1, [.startedRecognition])
  else (s1, [])

/-- `recognition.onerror` (`useWebSpeechAPI.ts` lines 139 to 160):
`not-allowed` and `service-not-allowed` set the error, fire the error
callback and clear the listening flag; `no-speech` and all other errors
change nothing. -/
def handleError (s : HookState) (err : List Char) : HookState × List HookEffect :=
  if err = notAllowed ∨ err = serviceNotAllowed then
    ({ s with errorMsg := some err, isListening := false }, [.onErrorCb err])
  else (s, [])

/-- `startListening` (`useWebSpeechAPI.ts` lines 185 to 207).  When the API
is unsupported, report an error; when not currently listening, clear the
manual-stop flag and the transcripts and call `recognition.start()`, whose
failure (`startFailure`) is caught and reported; when already listening, do
nothing. -/
def startListening (s : HookState) (startFailure : Option (List Char)) :
    HookState × List HookEffect :=
  if !s.isSupported then
    ({ s with errorMsg := some unsupportedText }, [.onErrorCb unsupportedText])
  else if !s.isListening then
    let s1 := { s with manualStop := false, transcript := [], interim := [],
                       errorMsg := none }
    match startFailure with
    | none => (s1, [.startedRecognition])
    | some m => ({ s1 with errorMsg := some m },
                 [.startedRecognition, .onErrorCb m])
  else (s, [])

/-- `stopListening` (`useWebSpeechAPI.ts` lines 209 to 218): when listening,
set the manual-stop flag and call `recognition.stop()`; otherwise do
nothing. -/
def stopListening (s : HookState) : HookState × List HookEffect :=
  if s.isListening then ({ s with manualStop := true }, [.stoppedRecognition])
  else (s, [])

/-- Events driving the hook: recognizer callbacks and the two exported
calls. -/
inductive HookEvent
  | started
  | ended
  | errored (msg : List Char)
  | startCalled
  | stopCalled
deriving DecidableEq, Repr

/-- One hook transition per event. -/
def hookStep (s : HookState) : HookEvent → HookState × List HookEffect
  | .started => (handleStart s, [])
  | .ended => handleEnd s
  | .errored m => handleError s m
  | .startCalled => startListening s none
  | .stopCalled => stopListening s

/-- Run a sequence of hook events, accumulating effects in order. -/
def hookRun (s : HookState) : List HookEvent → HookState × List HookEffect
  | [] => (s, [])
  | e :: es =>
    ((hookRun (hookStep s e).1 es).1,
      (hookStep s e).2 ++ (hookRun (hookStep s e).1 es).2)

/-- The hook state while background listening is active, as configured by
`App.tsx` (`continuous: true`). -/
def listeningState : HookState :=
  { isSupported := true, isListening := true, manualStop := false,
    continuous := true, transcript := [], interim := [], errorMsg := none }

/-- One transient-failure cycle of the background loop: a `no-speech`
timeout error, the recognition end it causes, and the start callback of the
automatic restart. -/
def transientCycle : List HookEvent := [.errored noSpeech, .ended, .started]

/-- `n` consecutive transient-failure cycles. -/
def cycles : Nat → List HookEvent
  | 0 => []
  | n + 1 => transientCycle ++ cycles n

/-! ## The zustand store (`src/store/useKikuStore.ts`) and `src/App.tsx`

Both are embedded as pure transition functions over their visible state.
Calls into the Tauri backend and other observable actions are recorded in an
effect list in program order; the outcome of each fallible backend call is a
parameter of the transition (`Except` for calls the code awaits in a
`try` block). -/

/-- Observable actions a frontend handler performs, in program order. -/
inductive FrontEffect
  | invokeStart
  | invokeStop
  | invokeLog
  | invokeProcess
  | invokeInit
  | display (t : List Char)
  | consoleError (tag : List Char)
deriving DecidableEq, Repr

/-- Effects that remain part of the frontend behaviour proper: everything
except `console.error` diagnostics. -/
def observable : List FrontEffect → List FrontEffect :=
  List.filter fun e =>
    match e with
    | .consoleError _ => false
    | _ => true

def wakePrompt : List Char :=
  "Listening for wake word (\"kiku\" or \"computer\")...".data

def noSpeechText : List Char := "(No speech detected)".data

def wakeDetectedText : List Char := "Wake word detected!".data

def initFirstText : List Char := "Please initialize the voice system first".data

def startedListeningText : List Char :=
  "Listening for wake word. Whisper will activate after wake word is detected.".data

def whisperActiveText : List Char :=
  "Wake word detected! Recording with Whisper for accurate transcription...".data

def interimWakeText (t : List Char) : List Char :=
  "Wake word detected: \"".data ++ t ++ "\" - waiting for final...".data

def recordingFailedText (e : List Char) : List Char :=
  "Recording failed: ".data ++ e

def processingText : List Char := "Processing transcription...".data

def listeningWhisperText : List Char :=
  "Listening... (Recording with Whisper)".data

def failedStartText (e : List Char) : List Char :=
  "Failed to start recording: ".data ++ e

def transcriptionFailedText (e : List Char) : List Char :=
  "Transcription failed: ".data ++ e

def enterPathText : List Char := "Please enter a model path".data

def initFailedText (e : List Char) : List Char :=
  "Initialization failed: ".data ++ e

/-- Wake-word test of `handleWebSpeechResult` (`useKikuStore.ts` lines 169
to 170) and of the `onSpeechEnd` handler in `App.tsx` (lines 293 to 294):
the lowercased text contains `kiku` or `computer`. -/
def hasWakeWord (t : List Char) : Bool :=
  containsSub (toLowerList t) "kiku".data ||
    containsSub (toLowerList t) "computer".data

/-- Store state of `useKikuStore.ts` (the fields the embedded actions
touch). -/
structure StoreState where
  isInitialized : Bool
  isListening : Bool
  isRecording : Bool
  transcriptionText : List Char
  message : Option Msg
  commandHistory : List VoiceCommand
deriving DecidableEq, Repr

/-- `startListening` of the store (`useKikuStore.ts` lines 123 to 152): an
error message when not initialized; otherwise set the listening flag, the
wake-word prompt and a success message.  Nothing in the body can throw, so
the catch branch is dead code. -/
def storeStartListening (s : StoreState) : StoreState :=
  if !s.isInitialized then
    { s with message := some ⟨.error, initFirstText, none⟩ }
  else
    { s with message := some ⟨.success, startedListeningText, none⟩,
             isListening := true,
             transcriptionText := wakePrompt }

/-- `handleWebSpeechResult` of the store (`useKikuStore.ts` lines 164 to
248).  `startRec`, `stopRec` and `logRes` are the outcomes of the awaited
backend calls `start_recording`, `stop_recording` and `log_voice_command`;
`processRes` is the classifier result of `process_voice_command`. -/
def handleWebSpeechResult (s : StoreState) (transcript : List Char)
    (isFinal : Bool) (startRec : Except (List Char) Unit)
    (stopRec : Except (List Char) VoiceCommand)
    (logRes : Except (List Char) Unit) (processRes : Option CommandType) :
    StoreState × List FrontEffect :=
  if !s.isInitialized then (s, [])
  else if !isFinal && hasWakeWord transcript then
    ({ s with transcriptionText := interimWakeText transcript },
     [.display (interimWakeText transcript)])
  else if isFinal && hasWakeWord transcript then
    let s1 : StoreState :=
      { s with transcriptionText := whisperActiveText,
               message := some ⟨.info, wakeDetectedText, none⟩ }
    if !s1.isRecording then
      let s2 := { s1 with isRecording := true }
      match startRec with
      | .error e =>
        ({ s2 with isRecording := false,
                   message := some ⟨.error, recordingFailedText e, none⟩,
                   transcriptionText := wakePrompt },
         [.display whisperActiveText, .invokeStart, .consoleError e,
          .display wakePrompt])
      | .ok _ =>
        match stopRec with
        | .error e =>
          ({ s2 with isRecording := false,
                     message := some ⟨.error, recordingFailedText e, none⟩,
                     transcriptionText := wakePrompt },
           [.display whisperActiveText, .invokeStart, .invokeStop,
            .consoleError e, .display wakePrompt])
        | .ok cmd =>
          let displayed := if cmd.text = [] then noSpeechText else cmd.text
          let s3 := { s2 with isRecording := false,
                              transcriptionText := displayed }
          if cmd.text = [] then
            ({ s3 with transcriptionText := wakePrompt },
             [.display whisperActiveText, .invokeStart, .invokeStop,
              .display displayed, .display wakePrompt])
          else
            let s4 := { s3 with commandHistory := cmd :: s3.commandHistory }
            let logEffects : List FrontEffect :=
              match logRes with
              | .ok _ => [.invokeLog]
              | .error e => [.invokeLog, .consoleError e]
            let s5 :=
              match processRes with
              | some ct =>
                { s4 with message := some ⟨.command, commandMessage ct, some ct⟩ }
              | none => s4
            ({ s5 with transcriptionText := wakePrompt },
             [.display whisperActiveText, .invokeStart, .invokeStop,
              .display displayed] ++ logEffects ++
               [.invokeProcess, .display wakePrompt])
    else (s1, [.display whisperActiveText])
  else (s, [])

/-- Frontend state of `App.tsx` (the fields the embedded handlers touch;
`isRecordingFlag` is the `isRecordingRef` ref). -/
structure AppState where
  modelPath : List Char
  isInitialized : Bool
  isRecordingFlag : Bool
  isListening : Bool
  isProcessing : Bool
  transcriptionText : List Char
  message : Option Msg
  commandHistory : List VoiceCommand
deriving DecidableEq, Repr

/-- The `onSpeechStart` callback of `App.tsx` (lines 252 to 269): return
immediately unless initialized and not already recording; otherwise set the
recording flag, then call `start_recording`, resetting the flag and
reporting an error if the call fails. -/
def onSpeechStart (s : AppState) (startRec : Except (List Char) Unit) :
    AppState × List FrontEffect :=
  if !s.isInitialized || s.isRecordingFlag then (s, [])
  else
    let s1 := { s with isRecordingFlag := true,
                       transcriptionText := listeningWhisperText }
    match startRec with
    | .ok _ => (s1, [.display listeningWhisperText, .invokeStart])
    | .error e =>
      ({ s1 with isRecordingFlag := false,
                 message := some ⟨.error, failedStartText e, none⟩ },
       [.display listeningWhisperText, .invokeStart, .consoleError e])

/-- The `onSpeechEnd` callback of `App.tsx` (lines 270 to 325): stop the
recording, display the transcription or the no-speech placeholder, record
the command in the history, log it best-effort, and when the command text
holds a wake word, classify it and show the command message. -/
def onSpeechEnd (s : AppState) (stopRec : Except (List Char) VoiceCommand)
    (logRes : Except (List Char) Unit) (processRes : Option CommandType) :
    AppState × List FrontEffect :=
  if !s.isInitialized || !s.isRecordingFlag then (s, [])
  else
    let s0 := { s with transcriptionText := processingText }
    match stopRec with
    | .error e =>
      ({ s0 with isRecordingFlag := false,
                 message := some ⟨.error, transcriptionFailedText e, none⟩,
                 transcriptionText := wakePrompt },
       [.display processingText, .invokeStop, .consoleError e,
        .display wakePrompt])
    | .ok cmd =>
      let displayed := if cmd.text = [] then noSpeechText else cmd.text
      let s1 := { s0 with isRecordingFlag := false,
                          transcriptionText := displayed }
      if cmd.text = [] then
        ({ s1 with transcriptionText := wakePrompt },
         [.display processingText, .invokeStop, .display displayed,
          .display wakePrompt])
      else
        let s2 := { s1 with commandHistory := cmd :: s1.commandHistory }
        let logEffects : List FrontEffect :=
          match logRes with
          | .ok _ => [.invokeLog]
          | .error e => [.invokeLog, .consoleError e]
        if hasWakeWord cmd.text then
          let s3 := { s2 with message := some ⟨.info, wakeDetectedText, none⟩ }
          let s4 :=
            match processRes with
            | some ct =>
              { s3 with message := some ⟨.command, commandMessage ct, some ct⟩ }
            | none => s3
          ({ s4 with transcriptionText := wakePrompt },
           [.display processingText, .invokeStop, .display displayed] ++
             logEffects ++ [.invokeProcess, .display wakePrompt])
        else
          ({ s2 with transcriptionText := wakePrompt },
           [.display processingText, .invokeStop, .display displayed] ++
             logEffects ++ [.display wakePrompt])

/-- The `handleInitialize` handler of `App.tsx` (lines 446 to 466): require
a model path, then call `initialize_voice`; success sets the initialized
flag and shows the result, failure only shows an error message.
`isProcessing` is set for the duration of the call and cleared in the
`finally` block. -/
def appHandleInit (s : AppState) (initRes : Except (List Char) (List Char)) :
    AppState × List FrontEffect :=
  if s.modelPath = [] then
    ({ s with message := some ⟨.error, enterPathText, none⟩ }, [])
  else
    match initRes with
    | .ok result =>
      ({ s with isProcessing := false, isInitialized := true,
                message := some ⟨.success, result, none⟩ }, [.invokeInit])
    | .error e =>
      ({ s with isProcessing := false,
                message := some ⟨.error, initFailedText e, none⟩ },
       [.invokeInit])

/-! ## Helper lemmas -/

/-- `List.find?` returns the element at the first index satisfying the
predicate when every earlier index fails it. -/
theorem find_first_aux {α : Type} (p : α → Bool) :
    ∀ (l : List α) (i : Nat) (hi : i < l.length),
      p (l.get ⟨i, hi⟩) = true →
      (∀ (j : Nat) (hj : j < l.length), j < i → p (l.get ⟨j, hj⟩) = false) →
      l.find? p = some (l.get ⟨i, hi⟩) := by
  intro l
  induction l with
  | nil => intro i hi _ _; exact absurd hi (Nat.not_lt_zero i)
  | cons a as ih =>
    intro i hi hp hbefore
    cases i with
    | zero =>
      simp only [List.get] at hp
      simp [List.find?_cons_of_pos, hp]
    | succ n =>
      have ha : p a = false := hbefore 0 (Nat.succ_pos _) (Nat.succ_pos n)
      rw [List.find?_cons_of_neg as (by simp [ha])]
      exact ih n (Nat.lt_of_succ_lt_succ hi) hp
        (fun j hj hlt => hbefore (j + 1) (Nat.succ_lt_succ hj)
          (Nat.succ_lt_succ hlt))

/-- Running a concatenated event trace composes states and concatenates
effects. -/
theorem hookRun_append (t1 : List HookEvent) :
    ∀ (t2 : List HookEvent) (s : HookState),
      hookRun s (t1 ++ t2) =
        ((hookRun (hookRun s t1).1 t2).1,
          (hookRun s t1).2 ++ (hookRun (hookRun s t1).1 t2).2) := by
  induction t1 with
  | nil => intro t2 s; simp [hookRun]
  | cons e es ih => intro t2 s; simp [hookRun, ih, List.append_assoc]

/-- One transient-failure cycle from the listening state performs exactly one
automatic restart and returns to the listening state. -/
theorem transientCycle_run :
    hookRun listeningState transientCycle =
      (listeningState, [HookEffect.startedRecognition]) := by decide

/-- `n` transient-failure cycles from the listening state perform exactly
`n` automatic restarts and return to the listening state. -/
theorem cycles_run :
    ∀ n : Nat, hookRun listeningState (cycles n) =
      (listeningState, List.replicate n HookEffect.startedRecognition) := by
  intro n
  induction n with
  | zero => rfl
  | succ k ih =>
    rw [cycles, hookRun_append, transientCycle_run]
    simp [ih, List.replicate_succ]

/-- Once the manual-stop flag is set, any event other than a `startListening`
call preserves it and performs no recognizer restart. -/
theorem manualStop_preserved_step (s : HookState) (e : HookEvent)
    (hs : s.manualStop = true) (he : e ≠ HookEvent.startCalled) :
    (hookStep s e).1.manualStop = true ∧
      HookEffect.startedRecognition ∉ (hookStep s e).2 := by
  cases e with
  | started => simp [hookStep, handleStart, hs]
  | ended => simp [hookStep, handleEnd, hs]
  | errored m =>
    simp only [hookStep, handleError]
    split <;> simp [hs]
  | startCalled => exact absurd rfl he
  | stopCalled =>
    simp only [hookStep, stopListening]
    split <;> simp [hs]

/-- Once the manual-stop flag is set, no trace free of `startListening` calls
ever restarts the recognizer, and the flag stays set. -/
theorem manualStop_no_restart (t : List HookEvent) :
    ∀ s : HookState, s.manualStop = true →
      (∀ e ∈ t, e ≠ HookEvent.startCalled) →
      (hookRun s t).1.manualStop = true ∧
        HookEffect.startedRecognition ∉ (hookRun s t).2 := by
  induction t with
  | nil => intro s hs _; simpa [hookRun] using hs
  | cons e es ih =>
    intro s hs hne
    have h1 := manualStop_preserved_step s e hs (hne e (List.mem_cons_self e es))
    have h2 := ih (hookStep s e).1 h1.1
      (fun x hx => hne x (List.mem_cons_of_mem e hx))
    refine ⟨by simpa [hookRun] using h2.1, ?_⟩
    simp only [hookRun, List.mem_append, not_or]
    exact ⟨h1.2, h2.2⟩

/-! ## Claim theorems -/

/-- **C1**: at most one recording is active at any instant.  In the
backend Recording Session (modelled from the spec), `start_recording` on any
active (Recording) state fails with `AlreadyRecording` instead of replacing
the buffer; a second `start_recording` after a successful one, with no
intervening stop, fails with `AlreadyRecording`; and the `onSpeechStart`
handler of `App.tsx` never issues a `start_recording` invocation while its
recording flag is set. -/
theorem startRecording_exclusive :
    (∀ buf : List Int,
      start_recording (RecSession.recording buf) =
        .error VoiceErr.alreadyRecording) ∧
    (∀ st1 : RecSession, start_recording RecSession.idle = .ok st1 →
      start_recording st1 = .error VoiceErr.alreadyRecording) ∧
    (∀ (s : AppState) (startRec : Except (List Char) Unit),
      s.isRecordingFlag = true → onSpeechStart s startRec = (s, [])) := by
  refine ⟨fun _ => rfl, ?_, ?_⟩
  · intro st1 h
    simp only [start_recording, Except.ok.injEq] at h
    rw [← h]
    rfl
  · intro s startRec hrec
    simp [onSpeechStart, hrec]

/-- **C6**: finalizing a recording with zero accumulated samples is a
non-error outcome.  The modelled backend `transcribe` returns empty text and
zero confidence for an empty buffer; `stop_recording` of an empty recording
returns an ok `VoiceCommand` with empty text and zero confidence; the
`onSpeechEnd` handler of `App.tsx` and the `handleWebSpeechResult` action of
the store both display the no-speech placeholder for such a command and take
the success branch (no error message, no console error). -/
theorem empty_recording_non_error :
    (∀ (m : List Char) (infer : List Int → Except VoiceErr (List Char × Rat)),
      transcribe (some m) [] infer = .ok ([], 0)) ∧
    (∀ (m : List Char) (infer : List Int → Except VoiceErr (List Char × Rat))
      (now : Nat),
      stop_recording (RecSession.recording []) (some m) infer now =
        (.ok ⟨[], 0, now⟩, RecSession.idle)) ∧
    (∀ (s : AppState) (pr : Option CommandType) (now : Nat),
      s.isInitialized = true → s.isRecordingFlag = true →
      onSpeechEnd s (.ok ⟨[], 0, now⟩) (.ok ()) pr =
        ({ s with isRecordingFlag := false, transcriptionText := wakePrompt },
         [.display processingText, .invokeStop, .display noSpeechText,
          .display wakePrompt])) ∧
    (∀ (s : StoreState) (t : List Char) (now : Nat),
      s.isInitialized = true → s.isRecording = false → hasWakeWord t = true →
      handleWebSpeechResult s t true (.ok ()) (.ok ⟨[], 0, now⟩) (.ok ()) none =
        ({ s with isRecording := false,
                  message := some ⟨.info, wakeDetectedText, none⟩,
                  transcriptionText := wakePrompt },
         [.display whisperActiveText, .invokeStart, .invokeStop,
          .display noSpeechText, .display wakePrompt])) := by
  refine ⟨fun _ _ => rfl, fun _ _ _ => rfl, ?_, ?_⟩
  · intro s pr now hinit hrec
    simp [onSpeechEnd, hinit, hrec]
  · intro s t now hinit hrec hwake
    simp [handleWebSpeechResult, hinit, hrec, hwake]

/-- **C7**: the command classifier (modelled from the spec and the README
trigger list) is a total pure function over text: it lowercases the input
and matches it against the statically ordered trigger table, the first
matching trigger in table order wins, it returns nothing when no trigger
matches (including for empty text), and the three specified examples hold. -/
theorem classify_total_first_match :
    classify "hello there".data = some CommandType.greeting ∧
    classify "please start now".data = some CommandType.start_workflow ∧
    classify "random noise".data = none ∧
    classify [] = none ∧
    (∀ t : List Char,
      (∀ p ∈ triggerTable, containsSub (toLowerList t) p.1 = false) →
      classify t = none) ∧
    (∀ (t : List Char) (i : Nat) (hi : i < triggerTable.length),
      containsSub (toLowerList t) (triggerTable.get ⟨i, hi⟩).1 = true →
      (∀ (j : Nat) (hj : j < triggerTable.length), j < i →
        containsSub (toLowerList t) (triggerTable.get ⟨j, hj⟩).1 = false) →
      classify t = some (triggerTable.get ⟨i, hi⟩).2) := by
  refine ⟨by decide, by decide, by decide, by decide, ?_, ?_⟩
  · intro t h
    unfold classify
    rw [List.find?_eq_none.mpr (fun x hx => by simp [h x hx])]
    rfl
  · intro t i hi hp hbefore
    unfold classify
    rw [find_first_aux _ triggerTable i hi hp hbefore]
    rfl

/-- **C8**: model loading is atomic with respect to failure.  The modelled
backend `load` with a bad path returns `ModelLoadError` and leaves the
previously loaded model in place and usable by `transcribe`; with a good
path the new model is fully loaded; and the `handleInitialize` handler of
`App.tsx` leaves its initialized flag unchanged on the error path, showing
only an error message. -/
theorem load_failure_atomic :
    (∀ (fileOk : List Char → Bool) (m path : List Char),
      fileOk path = false →
      loadModel fileOk (some m) path = (some m, some VoiceErr.modelLoadError)) ∧
    (∀ (fileOk : List Char → Bool) (m path : List Char)
      (infer : List Int → Except VoiceErr (List Char × Rat)),
      fileOk path = false →
      transcribe (loadModel fileOk (some m) path).1 [] infer = .ok ([], 0)) ∧
    (∀ (fileOk : List Char → Bool) (m : Option (List Char)) (path : List Char),
      fileOk path = true → loadModel fileOk m path = (some path, none)) ∧
    (∀ (s : AppState) (e : List Char),
      s.modelPath ≠ [] →
      (appHandleInit s (.error e)).1.isInitialized = s.isInitialized ∧
      (appHandleInit s (.error e)).1.message =
        some ⟨.error, initFailedText e, none⟩) := by
  refine ⟨?_, ?_, ?_, ?_⟩
  · intro fileOk m path h; simp [loadModel, h]
  · intro fileOk m path infer h; simp [loadModel, h, transcribe]
  · intro fileOk m path h; simp [loadModel, h]
  · intro s e h; simp [appHandleInit, h]

/-- **C2** (counterexample): the claim that invoking start-listening while
listening is active returns an `AlreadyListening` error is false at the
concrete listening state: the hook `startListening` leaves the state
untouched, performs no effect, and surfaces no error of any kind. -/
theorem startListening_already_listening_cex :
    startListening listeningState none = (listeningState, []) ∧
    (startListening listeningState none).1.errorMsg = none := by
  exact ⟨by decide, by decide⟩

/-- **C2** (amended): the frontend start-listening operation does not fail
with `AlreadyListening`.  The hook `startListening` is a silent no-op when
already listening; when supported and not listening it clears the
manual-stop flag, the transcripts and the error and starts recognition.  The
store `startListening` only checks initialization: when initialized it sets
the listening flag, the wake-word prompt and a success message, even if
listening was already active; when uninitialized it only sets an error
message. -/
theorem startListening_when_active_amended :
    (∀ (s : HookState) (startFailure : Option (List Char)),
      s.isSupported = true → s.isListening = true →
      startListening s startFailure = (s, [])) ∧
    (∀ s : HookState, s.isSupported = true → s.isListening = false →
      startListening s none =
        ({ s with manualStop := false, transcript := [], interim := [],
                  errorMsg := none }, [.startedRecognition])) ∧
    (∀ s : StoreState, s.isInitialized = true →
      storeStartListening s =
        { s with message := some ⟨.success, startedListeningText, none⟩,
                 isListening := true, transcriptionText := wakePrompt }) ∧
    (∀ s : StoreState, s.isInitialized = false →
      storeStartListening s =
        { s with message := some ⟨.error, initFirstText, none⟩ }) := by
  refine ⟨?_, ?_, ?_, ?_⟩
  · intro s sf hsup hlisten; simp [startListening, hsup, hlisten]
  · intro s hsup hlisten; simp [startListening, hsup, hlisten]
  · intro s hinit; simp [storeStartListening, hinit]
  · intro s hinit; simp [storeStartListening, hinit]

/-- **C3** (counterexample): the claim that a fatal error (denied microphone
permission) aborts the listening loop immediately without any retry is false
at the concrete trace [not-allowed error, recognition end] from the
listening state: the end handler still issues a recognizer restart, because
the error handler does not set the manual-stop flag. -/
theorem fatal_error_restart_cex :
    (hookRun listeningState
        [HookEvent.errored notAllowed, HookEvent.ended]).2 =
      [HookEffect.onErrorCb notAllowed, HookEffect.startedRecognition] := by
  decide

/-- **C3** (amended): the background listening loop has no retry budget at
all.  Transient errors (`no-speech` timeouts) are retried without bound:
`n` consecutive transient-failure cycles from the listening state perform
exactly `n` automatic restarts and leave the hook listening, so no constant
bounds the number of consecutive retries; and a fatal permission error sets
the surfaced error and clears the listening flag but does not prevent the
restart issued by the subsequent end event. -/
theorem retry_unbounded_amended :
    (∀ n : Nat, hookRun listeningState (cycles n) =
      (listeningState, List.replicate n HookEffect.startedRecognition)) ∧
    (¬ ∃ B : Nat, ∀ n : Nat,
      ((hookRun listeningState (cycles n)).2).length ≤ B) ∧
    (handleError listeningState notAllowed =
      ({ listeningState with errorMsg := some notAllowed,
                             isListening := false },
       [.onErrorCb notAllowed])) ∧
    ((hookRun listeningState
        [HookEvent.errored notAllowed, HookEvent.ended]).1.manualStop = false) := by
  refine ⟨cycles_run, ?_, by decide, by decide⟩
  rintro ⟨B, hB⟩
  have h := hB (B + 1)
  rw [cycles_run (B + 1)] at h
  simp at h

/-- **C4**: cancellation of background listening is cooperative with bounded
latency.  `stopListening` on a listening state sets the manual-stop flag and
stops the recognizer; with the flag set, the next end event clears the
listening flag and performs no restart (so the listening predicate is false
within one cycle); and after the stop call no later trace free of explicit
`startListening` calls ever restarts the recognizer. -/
theorem stopListening_cooperative_cancellation :
    (∀ s : HookState, s.isListening = true →
      stopListening s =
        ({ s with manualStop := true }, [.stoppedRecognition])) ∧
    (∀ s : HookState, s.manualStop = true →
      (handleEnd s).1.isListening = false ∧ (handleEnd s).2 = []) ∧
    (∀ s : HookState, s.isListening = true →
      (hookRun s [HookEvent.stopCalled, HookEvent.ended]).1.isListening = false ∧
      HookEffect.startedRecognition ∉
        (hookRun s [HookEvent.stopCalled, HookEvent.ended]).2) ∧
    (∀ (s : HookState) (t : List HookEvent), s.isListening = true →
      (∀ e ∈ t, e ≠ HookEvent.startCalled) →
      HookEffect.startedRecognition ∉
        (hookRun s (HookEvent.stopCalled :: t)).2) := by
  refine ⟨?_, ?_, ?_, ?_⟩
  · intro s h; simp [stopListening, h]
  · intro s h; simp [handleEnd, h]
  · intro s h
    simp [hookRun, hookStep, stopListening, handleEnd, h]
  · intro s t hlisten hne
    have hstop : (hookStep s HookEvent.stopCalled).1.manualStop = true := by
      simp [hookStep, stopListening, hlisten]
    have hrest := manualStop_no_restart t (hookStep s HookEvent.stopCalled).1
      hstop hne
    simp only [hookRun, List.mem_append, not_or]
    refine ⟨?_, hrest.2⟩
    simp [hookStep, stopListening, hlisten]

/-- **C9**: auto-restart invariant of the listening hook.  Whenever the end
event fires with continuous mode on and the manual-stop flag clear, the
handler restarts recognition; conversely, in continuous mode an end event
that performs no restart can only happen with the manual-stop flag set; and
the only hook event that sets the manual-stop flag is the explicit
`stopListening` call. -/
theorem auto_restart_on_end :
    (∀ s : HookState, s.continuous = true → s.manualStop = false →
      handleEnd s =
        ({ s with isListening := false }, [.startedRecognition])) ∧
    (∀ s : HookState, s.continuous = true → (handleEnd s).2 = [] →
      s.manualStop = true) ∧
    (∀ (s : HookState) (e : HookEvent),
      (hookStep s e).1.manualStop = true →
      s.manualStop = true ∨ e = HookEvent.stopCalled) := by
  refine ⟨?_, ?_, ?_⟩
  · intro s hc hm; simp [handleEnd, hc, hm]
  · intro s hc h
    by_contra hm
    simp only [Bool.not_eq_true] at hm
    simp [handleEnd, hc, hm] at h
  · intro s e h
    cases e with
    | started => left; simpa [hookStep, handleStart] using h
    | ended =>
      left
      simp only [hookStep, handleEnd] at h
      revert h
      split <;> simp
    | errored m =>
      left
      simp only [hookStep, handleError] at h
      revert h
      split <;> simp
    | startCalled =>
      left
      simp only [hookStep, startListening] at h
      revert h
      split
      · simp
      · split <;> simp
    | stopCalled => right; rfl

/-- **C5**: logging a recognized voice command is best-effort.  For every
state, transcript and outcome of the other collaborator calls, a failing
`log_voice_command` leaves the resulting state and every observable effect
(backend invocations and display updates, in order) of both the store
`handleWebSpeechResult` action and the `App.tsx` `onSpeechEnd` handler
exactly as a succeeding one does: the failure is confined to a console
diagnostic and never reaches the control flow of the pipeline. -/
theorem log_failure_does_not_propagate :
    ∀ (s : StoreState) (a : AppState) (t : List Char) (isFinal : Bool)
      (startRec : Except (List Char) Unit)
      (stopRec : Except (List Char) VoiceCommand)
      (processRes : Option CommandType) (e : List Char),
      (handleWebSpeechResult s t isFinal startRec stopRec (.error e)
          processRes).1 =
        (handleWebSpeechResult s t isFinal startRec stopRec (.ok ())
          processRes).1 ∧
      observable (handleWebSpeechResult s t isFinal startRec stopRec (.error e)
          processRes).2 =
        observable (handleWebSpeechResult s t isFinal startRec stopRec (.ok ())
          processRes).2 ∧
      (onSpeechEnd a stopRec (.error e) processRes).1 =
        (onSpeechEnd a stopRec (.ok ()) processRes).1 ∧
      observable (onSpeechEnd a stopRec (.error e) processRes).2 =
        observable (onSpeechEnd a stopRec (.ok ()) processRes).2 := by
  intro s a t isFinal startRec stopRec processRes e
  refine ⟨?_, ?_, ?_, ?_⟩
  · cases hInit : s.isInitialized <;> cases isFinal <;>
      cases hWake : hasWakeWord t <;> cases hRec : s.isRecording <;>
      cases startRec <;> cases stopRec <;>
      simp [handleWebSpeechResult, hInit, hWake, hRec] <;>
      split <;> cases processRes <;> simp
  · cases hInit : s.isInitialized <;> cases isFinal <;>
      cases hWake : hasWakeWord t <;> cases hRec : s.isRecording <;>
      cases startRec <;> cases stopRec <;>
      simp [handleWebSpeechResult, hInit, hWake, hRec, observable] <;>
      split <;> simp [observable]
  · cases hInit : a.isInitialized <;> cases hRec : a.isRecordingFlag <;>
      cases stopRec <;>
      simp [onSpeechEnd, hInit, hRec] <;>
      split <;> (try split) <;> cases processRes <;> simp
  · cases hInit : a.isInitialized <;> cases hRec : a.isRecordingFlag <;>
      cases stopRec <;>
      simp [onSpeechEnd, hInit, hRec, observable] <;>
      split <;> (try split) <;> cases processRes <;> simp [observable]

/-- **C10**: wake-word gating of the store result handler.  For every store
state, transcript, finality flag and collaborator outcome, the
`handleWebSpeechResult` action issues a backend `start_recording` invocation
exactly when the system is initialized, the result is final, the lowercased
transcript contains a wake word (`kiku` or `computer`), and no recording is
already in progress; interim results and transcripts without a wake word
never trigger one. -/
theorem wake_word_gating :
    ∀ (s : StoreState) (t : List Char) (isFinal : Bool)
      (startRec : Except (List Char) Unit)
      (stopRec : Except (List Char) VoiceCommand)
      (logRes : Except (List Char) Unit) (processRes : Option CommandType),
      (FrontEffect.invokeStart ∈
        (handleWebSpeechResult s t isFinal startRec stopRec logRes
          processRes).2) ↔
        (s.isInitialized = true ∧ isFinal = true ∧ hasWakeWord t = true ∧
          s.isRecording = false) := by
  intro s t isFinal startRec stopRec logRes processRes
  cases hInit : s.isInitialized <;> cases isFinal <;>
    cases hWake : hasWakeWord t <;> cases hRec : s.isRecording <;>
    cases startRec <;> cases stopRec <;> cases logRes <;>
    simp [handleWebSpeechResult, hInit, hWake, hRec] <;>
    split <;> simp

end Kiku
